import Mathlib

/-!
Verification of the gh-stars core: fingerprinted cache plus multi-field
fuzzy ranking engine.  The definitions below are a shallow embedding of
the Go code in `cmd/root.go`; machine integers that stay small are
modelled as `Nat`, byte slices as `List Nat`, files as an association
list from path to contents, and fallible functions return `Except` or a
result paired with an optional error, mirroring the Go multiple-return
convention.
-/

namespace GhStars

/-- Maximum Levenshtein distance for fuzzy search (`MAX_FUZZY_DISTANCE` in
`cmd/root.go`). -/
def MAX_FUZZY_DISTANCE : Nat := 2

/-! ### String splitting helpers

`strings.Fields` splits on runs of whitespace; `strings.FieldsFunc`
splits on runs of characters satisfying a predicate.  Both drop empty
fields. -/

/-- Characters treated as whitespace by `unicode.IsSpace` (the Latin-1
range; the dataset strings in scope are ASCII). -/
def isSpaceChar (c : Char) : Bool :=
  c = ' ' || c = '\t' || c = '\n' || c = '\x0d' || c = '\x0b' || c = '\x0c' ||
  c = '\x85' || c = '\xa0'

/-- Accumulator-based splitter: `acc` holds the current field reversed. -/
def fieldsFuncAux (p : Char → Bool) : List Char → List Char → List (List Char)
  | [], acc => if acc.isEmpty then [] else [acc.reverse]
  | c :: cs, acc =>
    if p c then
      if acc.isEmpty then fieldsFuncAux p cs []
      else acc.reverse :: fieldsFuncAux p cs []
    else fieldsFuncAux p cs (c :: acc)

/-- Model of Go `strings.FieldsFunc`. -/
def fieldsFunc (p : Char → Bool) (s : String) : List String :=
  (fieldsFuncAux p s.data []).map (fun l => ⟨l⟩)

/-- Model of Go `strings.Fields`: split on whitespace runs. -/
def fields (s : String) : List String :=
  fieldsFunc isSpaceChar s

/-! ### Levenshtein distance

Model of `fuzzy.LevenshteinDistance` from lithammer/fuzzysearch: the
classic dynamic-programming edit distance over runes.  Implemented by
row iteration so that it is structurally recursive and evaluates inside
the kernel. -/

/-- One inner step of the DP: walk the remaining characters of `t`
together with the tail of the previous row, carrying the diagonal and
the cell just computed. -/
def levUpdate (a : Char) : List Char → List Nat → Nat → Nat → List Nat
  | [], _, _, _ => []
  | _ :: _, [], _, _ => []
  | b :: bs, p :: ps, diag, left =>
    let cell := min (p + 1) (min (left + 1) (diag + (if a = b then 0 else 1)))
    cell :: levUpdate a bs ps p cell

/-- Compute the next DP row for source character `a`. -/
def levRow (a : Char) (t : List Char) (row : List Nat) : List Nat :=
  match row with
  | [] => []
  | d :: ds => (d + 1) :: levUpdate a t ds d (d + 1)

/-- Levenshtein distance between two rune lists. -/
def lev (s t : List Char) : Nat :=
  (s.foldl (fun row a => levRow a t row) (List.range (t.length + 1))).getLastD 0

/-- Model of `fuzzy.LevenshteinDistance` on strings. -/
def LevenshteinDistance (s t : String) : Nat :=
  lev s.data t.data

/-! ### Data model: `Repo` and priority-queue items -/

/-- Owner sub-record of `Repo` in `cmd/root.go`. -/
structure Owner where
  Login : String
  Url : String
deriving DecidableEq, Repr

/-- The `Repo` struct of `cmd/root.go` (one starred repository). -/
structure Repo where
  Name : String
  Full_name : String
  Private : Bool
  Url : String
  Owner : Owner
  Description : String
  Fork : Bool
  Stars : Nat
  Topics : List String
deriving DecidableEq, Repr

/-- A `pq.Item` as pushed by `Search`: a repository value together with
its integer priority (the score).  All scores produced by the code are
non-negative, so the priority is a `Nat`. -/
structure Item where
  value : Repo
  priority : Nat
deriving DecidableEq, Repr

/-! ### Scoring

The three score formulas that `Search` inlines at each `heap.Push`
call site.  `rank` is the Levenshtein distance; Go integer division
truncates, and `rank` is non-negative, so `Nat` division matches. -/

/-- Name-tier score: `(rank/(rank+1) + 10) * 100`. -/
def nameScore (rank : Nat) : Nat := (rank / (rank + 1) + 10) * 100

/-- Description-tier score: `(rank/(rank+1) + 5) * 50`. -/
def descScore (rank : Nat) : Nat := (rank / (rank + 1) + 5) * 50

/-- Topic-tier score: `(rank/(rank+1) + 1) * 25`. -/
def topicScore (rank : Nat) : Nat := (rank / (rank + 1) + 1) * 25

/-- The repository name is split into word tokens on `-` and `_`. -/
def repoNameWords (name : String) : List String :=
  fieldsFunc (fun r => r = '-' || r = '_') name

/-- First word of the repository name whose distance to the needle is
within `MAX_FUZZY_DISTANCE`, returning its rank; the loop in `Search`
breaks at the first qualifying word.  (The Go guard `rank >= 0` is
vacuous for a `Nat`.) -/
def firstNameRank (needle : String) : List String → Option Nat
  | [] => none
  | w :: ws =>
    let rank := LevenshteinDistance needle w
    if rank ≤ MAX_FUZZY_DISTANCE then some rank else firstNameRank needle ws

/-- The matches `Search` emits for one (repository, needle) pair.  When a
name word qualifies, one name-tier item is pushed and the `continue`
skips both the description and the topics for this pair; otherwise every
qualifying description word and every qualifying topic pushes an item. -/
def searchRepoNeedle (repo : Repo) (needle : String) : List Item :=
  match firstNameRank needle (repoNameWords repo.Name) with
  | some rank => [⟨repo, nameScore rank⟩]
  | none =>
    ((fields repo.Description).filterMap fun word =>
      let rank := LevenshteinDistance needle word
      if rank ≤ MAX_FUZZY_DISTANCE then some (⟨repo, descScore rank⟩ : Item)
      else none) ++
    (repo.Topics.filterMap fun topic =>
      let rank := LevenshteinDistance needle topic
      if rank ≤ MAX_FUZZY_DISTANCE then some (⟨repo, topicScore rank⟩ : Item)
      else none)

/-- The `Search` function of `cmd/root.go`, after the dataset has been
deserialized into a list of `Repo` records (`json.Unmarshal` succeeded):
split the query into needles and scan every repository against every
needle, collecting the pushed items in push order. -/
def Search (repos : List Repo) (find : String) : List Item :=
  repos.flatMap fun repo =>
    (fields find).flatMap fun needle => searchRepoNeedle repo needle

/-! ### SHA-256

Model of `crypto/sha256.Sum256` (the Go standard library function used
by `GenerateCacheKey`), on byte lists.  Words are `Nat` values kept
below `2 ^ 32` by explicit reduction. -/

/-- Word size modulus. -/
def w32 : Nat := 4294967296

/-- Right rotation of a 32-bit word. -/
def rotateRight32 (x n : Nat) : Nat := ((x >>> n) ||| (x <<< (32 - n))) % w32

/-- SHA-256 big sigma 0. -/
def bSig0 (x : Nat) : Nat :=
  rotateRight32 x 2 ^^^ rotateRight32 x 13 ^^^ rotateRight32 x 22

/-- SHA-256 big sigma 1. -/
def bSig1 (x : Nat) : Nat :=
  rotateRight32 x 6 ^^^ rotateRight32 x 11 ^^^ rotateRight32 x 25

/-- SHA-256 small sigma 0. -/
def sSig0 (x : Nat) : Nat :=
  rotateRight32 x 7 ^^^ rotateRight32 x 18 ^^^ (x >>> 3)

/-- SHA-256 small sigma 1. -/
def sSig1 (x : Nat) : Nat :=
  rotateRight32 x 17 ^^^ rotateRight32 x 19 ^^^ (x >>> 10)

/-- SHA-256 choice function. -/
def shCh (x y z : Nat) : Nat := (x &&& y) ^^^ ((x ^^^ (w32 - 1)) &&& z)

/-- SHA-256 majority function. -/
def shMaj (x y z : Nat) : Nat := (x &&& y) ^^^ (x &&& z) ^^^ (y &&& z)

/-- The 64 SHA-256 round constants (decimal). -/
def K256 : List Nat :=
  [1116352408, 1899447441, 3049323471, 3921009573,
   961987163, 1508970993, 2453635748, 2870763221,
   3624381080, 310598401, 607225278, 1426881987,
   1925078388, 2162078206, 2614888103, 3248222580,
   3835390401, 4022224774, 264347078, 604807628,
   770255983, 1249150122, 1555081692, 1996064986,
   2554220882, 2821834349, 2952996808, 3210313671,
   3336571891, 3584528711, 113926993, 338241895,
   666307205, 773529912, 1294757372, 1396182291,
   1695183700, 1986661051, 2177026350, 2456956037,
   2730485921, 2820302411, 3259730800, 3345764771,
   3516065817, 3600352804, 4094571909, 275423344,
   430227734, 506948616, 659060556, 883997877,
   958139571, 1322822218, 1537002063, 1747873779,
   1955562222, 2024104815, 2227730452, 2361852424,
   2428436474, 2756734187, 3204031479, 3329325298]

/-- Hash state: eight 32-bit words. -/
structure SHState where
  h0 : Nat
  h1 : Nat
  h2 : Nat
  h3 : Nat
  h4 : Nat
  h5 : Nat
  h6 : Nat
  h7 : Nat
deriving DecidableEq, Repr

/-- SHA-256 initial hash value (decimal). -/
def initH : SHState :=
  ⟨1779033703, 3144134277, 1013904242, 2773480762,
   1359893119, 2600822924, 528734635, 1541459225⟩

/-- Append the next message-schedule word. -/
def scheduleStep (acc : List Nat) : List Nat :=
  let t := acc.length
  let w := fun i => acc.getD i 0
  acc ++ [(sSig1 (w (t - 2)) + w (t - 7) + sSig0 (w (t - 15)) + w (t - 16)) % w32]

/-- Extend 16 block words to the 64-word message schedule. -/
def schedule (ws : List Nat) : List Nat :=
  (List.range 48).foldl (fun acc _ => scheduleStep acc) ws

/-- One compression round, consuming a (round constant, schedule word)
pair. -/
def compressStep (s : SHState) (kw : Nat × Nat) : SHState :=
  let t1 := (s.h7 + bSig1 s.h4 + shCh s.h4 s.h5 s.h6 + kw.1 + kw.2) % w32
  let t2 := (bSig0 s.h0 + shMaj s.h0 s.h1 s.h2) % w32
  ⟨(t1 + t2) % w32, s.h0, s.h1, s.h2, (s.h3 + t1) % w32, s.h4, s.h5, s.h6⟩

/-- Compress one 16-word block into the running hash state. -/
def compress (st : SHState) (block : List Nat) : SHState :=
  let r := (K256.zip (schedule block)).foldl compressStep st
  ⟨(st.h0 + r.h0) % w32, (st.h1 + r.h1) % w32, (st.h2 + r.h2) % w32,
   (st.h3 + r.h3) % w32, (st.h4 + r.h4) % w32, (st.h5 + r.h5) % w32,
   (st.h6 + r.h6) % w32, (st.h7 + r.h7) % w32⟩

/-- Big-endian bytes of the 64-bit message bit length. -/
def lenBytes (n : Nat) : List Nat :=
  [n >>> 56 % 256, n >>> 48 % 256, n >>> 40 % 256, n >>> 32 % 256,
   n >>> 24 % 256, n >>> 16 % 256, n >>> 8 % 256, n % 256]

/-- SHA-256 padding: a `0x80` byte, zeros to 56 mod 64, then the bit
length in 8 big-endian bytes. -/
def padMessage (msg : List Nat) : List Nat :=
  msg ++ 128 :: List.replicate ((119 - msg.length % 64) % 64) 0 ++
    lenBytes (msg.length * 8)

/-- Group bytes into big-endian 32-bit words. -/
def bytesToWords : List Nat → List Nat
  | b0 :: b1 :: b2 :: b3 :: rest =>
    (b0 <<< 24 + b1 <<< 16 + b2 <<< 8 + b3) :: bytesToWords rest
  | _ => []

/-- Split a padded byte list into 16-word blocks; the fuel argument keeps
the recursion structural. -/
def toBlocks : Nat → List Nat → List (List Nat)
  | 0, _ => []
  | fuel + 1, l =>
    if l.isEmpty then [] else bytesToWords (l.take 64) :: toBlocks fuel (l.drop 64)

/-- Big-endian bytes of one 32-bit word. -/
def wordBytes (x : Nat) : List Nat :=
  [x >>> 24 % 256, x >>> 16 % 256, x >>> 8 % 256, x % 256]

/-- Serialize a hash state to its 32 digest bytes. -/
def stateBytes (s : SHState) : List Nat :=
  wordBytes s.h0 ++ wordBytes s.h1 ++ wordBytes s.h2 ++ wordBytes s.h3 ++
  wordBytes s.h4 ++ wordBytes s.h5 ++ wordBytes s.h6 ++ wordBytes s.h7

/-- Model of `sha256.Sum256`: digest of a byte list. -/
def sha256Sum (msg : List Nat) : List Nat :=
  stateBytes ((toBlocks (padMessage msg).length (padMessage msg)).foldl compress initH)

/-- UTF-8 bytes of one code point. -/
def utf8Bytes (c : Char) : List Nat :=
  let n := c.toNat
  if n < 128 then [n]
  else if n < 2048 then [192 + n / 64, 128 + n % 64]
  else if n < 65536 then [224 + n / 4096, 128 + n / 64 % 64, 128 + n % 64]
  else [240 + n / 262144, 128 + n / 4096 % 64, 128 + n / 64 % 64, 128 + n % 64]

/-- Model of the Go conversion from `string` to `[]byte` (UTF-8). -/
def utf8Encode (s : String) : List Nat :=
  s.data.flatMap utf8Bytes

/-! ### GenerateCacheKey

The probe response is passed in explicitly: the Go function reads it
from `client.Do`; transport-level failures are outside this model.
Header lookup mirrors `http.Header.Get`, which returns the empty string
for an absent key (the test doubles set keys verbatim). -/

/-- An HTTP probe response: status code plus response headers. -/
structure ProbeResponse where
  statusCode : Nat
  headers : List (String × String)
deriving DecidableEq, Repr

/-- Model of `resp.Header.Get`: first value for the key, or `""`. -/
def headerGet (resp : ProbeResponse) (key : String) : String :=
  match resp.headers.find? (fun e => e.1 = key) with
  | some e => e.2
  | none => ""

/-- The error cases produced by `GenerateCacheKey` (each is a
`fmt.Errorf` value in Go; the constructors carry exactly the data
interpolated into the message). -/
inductive KeyError where
  | emptyUser : KeyError
  | rateLimited (used remaining reset : String) : KeyError
  | notFound : KeyError
  | unexpectedStatus (code : Nat) : KeyError
deriving DecidableEq, Repr

/-- The all-zero `[32]byte` value returned alongside every error. -/
def zeroKey : List Nat := List.replicate 32 0

/-- Model of `GenerateCacheKey` in `cmd/root.go`: reject an empty user,
map 403/404/other non-200 statuses to their errors, and on 200 digest
the raw `Link` header.  The result is the Go pair (digest, error). -/
def GenerateCacheKey (user : String) (resp : ProbeResponse) :
    List Nat × Option KeyError :=
  if user = "" then (zeroKey, some .emptyUser)
  else if resp.statusCode = 403 then
    (zeroKey, some (.rateLimited (headerGet resp "X-RateLimit-Used")
      (headerGet resp "X-RateLimit-Remaining") (headerGet resp "X-RateLimit-Reset")))
  else if resp.statusCode = 404 then (zeroKey, some .notFound)
  else if resp.statusCode = 200 then
    (sha256Sum (utf8Encode (headerGet resp "Link")), none)
  else (zeroKey, some (.unexpectedStatus resp.statusCode))

/-! ### Filesystem model and the cache store

Files are an association list from path to contents (a `String`); a
lookup returns the most recent write.  `os.Stat` existence, `os.Open`
failure on an absent file, and `O_CREATE` creation are expressed
against this state. -/

/-- Filesystem state: newest write first. -/
abbrev FS := List (String × String)

/-- Contents of the file at `p`, if it exists. -/
def fsRead (fs : FS) (p : String) : Option String :=
  match List.find? (fun e => e.1 = p) fs with
  | some e => some e.2
  | none => none

/-- Model of `fileExists` in `cmd/root.go` (via `os.Stat`). -/
def fileExists (fs : FS) (p : String) : Bool :=
  (fsRead fs p).isSome

/-- Write (create or truncate) the file at `p`. -/
def fsWrite (fs : FS) (p : String) (content : String) : FS :=
  (p, content) :: fs

/-- Errors surfaced by the cache store (`fmt.Errorf` and `*PathError`
values in Go). -/
inductive CacheError where
  | emptyCacheKey : CacheError
  | openFailed (path : String) : CacheError
deriving DecidableEq, Repr

/-- Lowercase hex digit of a nibble. -/
def hexDigit (n : Nat) : Char :=
  if n < 10 then Char.ofNat (48 + n) else Char.ofNat (87 + n)

/-- Model of Go `fmt.Sprintf "%x"` on a byte slice. -/
def hexEncode (bs : List Nat) : String :=
  ⟨bs.flatMap fun b => [hexDigit (b / 16), hexDigit (b % 16)]⟩

/-- Model of `filepath.Join` for a clean directory and a file name. -/
def joinPath (dir file : String) : String := dir ++ "/" ++ file

/-- Model of `GetCachePath` in `cmd/root.go`.  `cacheFile` is the global
`--cache-file` flag value and `tmpDir` the value of `os.TempDir()`,
both passed explicitly.  Besides the returned path it may create an
empty placeholder file, so the new filesystem state is returned too. -/
def GetCachePath (cacheFile tmpDir : String) (cacheKey : List Nat) (fs : FS) :
    Except CacheError String × FS :=
  if cacheFile ≠ "" then (.ok cacheFile, fs)
  else if cacheKey = zeroKey then (.error .emptyCacheKey, fs)
  else
    let path := joinPath tmpDir ("stars_" ++ hexEncode (cacheKey.take 6) ++ ".json")
    if fileExists fs path then (.ok path, fs)
    else (.ok path, fsWrite fs path "")

/-- Model of `fileSize` in `cmd/root.go`: `os.Open` fails when the file
is absent and that error propagates; otherwise the content length. -/
def fileSize (fs : FS) (path : String) : Except CacheError Nat :=
  match fsRead fs path with
  | none => .error (.openFailed path)
  | some content => .ok content.length

/-- Replace every occurrence of `"]["` by `","`, scanning left to
right: model of `strings.Replace(result, "][", ",", -1)`. -/
def replaceBrackets : List Char → List Char
  | [] => []
  | [c] => [c]
  | c1 :: c2 :: rest =>
    if c1 = ']' ∧ c2 = '[' then ',' :: replaceBrackets rest
    else c1 :: replaceBrackets (c2 :: rest)

/-- Whether the two-character sequence `"]["` occurs in the list. -/
def hasBrackets : List Char → Bool
  | [] => false
  | [_] => false
  | c1 :: c2 :: rest =>
    if c1 = ']' ∧ c2 = '[' then true else hasBrackets (c2 :: rest)

/-- String version of `replaceBrackets`. -/
def fixConcatenated (s : String) : String := ⟨replaceBrackets s.data⟩

/-- Model of `GetStarredRepos` in `cmd/root.go`.  `fetched` is the
stdout of the external `gh api --paginate` call (the dataset provider
is a collaborator supplying opaque bytes).  Returns the Go pair as an
`Except` together with the final filesystem state. -/
def GetStarredRepos (cacheFileFlag tmpDir : String) (cacheKey : List Nat)
    (fetched : String) (fs : FS) : Except CacheError String × FS :=
  match GetCachePath cacheFileFlag tmpDir cacheKey fs with
  | (.error e, fs1) => (.error e, fs1)
  | (.ok path, fs1) =>
    match fileSize fs1 path with
    | .error e => (.error e, fs1)
    | .ok size =>
      if size > 0 then
        ((fsRead fs1 path).elim (.error (.openFailed path)) .ok, fs1)
      else
        let jsonResult := fixConcatenated fetched
        if fileExists fs1 path then (.ok jsonResult, fsWrite fs1 path jsonResult)
        else (.error (.openFailed path), fs1)

/-! ### Result queue and top-K extraction

The priority-queue package `lib/pq` is part of this repository but its
source is not under `src/`; only its callers and tests are.  Modelled
from the spec: a max-heap of matches keyed by score, where
`popHighest` removes and returns the match with the greatest score,
ties broken by insertion order, and `len` is the live entry count.  The
queue is represented as the list of its entries in insertion order. -/

/-- Modelled from the spec: remove the highest-priority item (earliest
inserted among ties), returning it and the remaining queue. -/
def popHighest : List Item → Option (Item × List Item)
  | [] => none
  | x :: xs =>
    match popHighest xs with
    | none => some (x, [])
    | some (y, ys) => if x.priority < y.priority then some (y, x :: ys) else some (x, xs)

/-- Model of `RenderLimit` in `cmd/root.go`: `-1` (and anything below)
means drain everything, otherwise the minimum of the limit and the
result count.  (`math.Min` on exact small integers is `min`.) -/
def RenderLimit (resultsCount : Nat) (limit : Int) : Nat :=
  if limit ≤ -1 then resultsCount else min limit.toNat resultsCount

/-- The pop loop shared by `RenderTable` and `RenderJsonOutput`: pop
`n` times, collecting the items in pop order. -/
def renderPops : Nat → List Item → List Item
  | 0, _ => []
  | n + 1, q =>
    match popHighest q with
    | none => []
    | some (x, rest) => x :: renderPops n rest

/-! ### Concrete fixtures used by counterexamples and witnesses -/

/-- A repository whose name token and topic both equal the needle
`"abc"` exactly. -/
def repoAbcTopic : Repo := ⟨"abc", "", false, "", ⟨"", ""⟩, "", false, 0, ["abc"]⟩

/-- A repository whose name is at distance 0 from the needle `"abc"`. -/
def repoAbc : Repo := ⟨"abc", "", false, "", ⟨"", ""⟩, "", false, 0, []⟩

/-- A repository whose name is at distance 2 from the needle `"abc"`. -/
def repoAbcde : Repo := ⟨"abcde", "", false, "", ⟨"", ""⟩, "", false, 0, []⟩

/-- The cache key of the 200-response test in `cmd/root_test.go`. -/
def testKey : List Nat :=
  [0x2d, 0x06, 0xa8, 0x9b, 0x26, 0x87, 0x74, 0x57, 0x13, 0xef, 0x0f, 0x02,
   0x5b, 0x8f, 0xff, 0x17, 0x87, 0x3b, 0x87, 0x0e, 0x73, 0x04, 0x30, 0x0a,
   0x98, 0x22, 0x86, 0x81, 0x6e, 0x47, 0x1e, 0x6e]

/-! ### Scoring lemmas

`rank / (rank + 1)` truncates to zero for every `rank`, so each tier
score collapses to a constant. -/

/-- The name-tier score is the constant 1000. -/
theorem nameScore_eq (rank : Nat) : nameScore rank = 1000 := by
  unfold nameScore
  rw [Nat.div_eq_of_lt (Nat.lt_succ_self rank)]

/-- The description-tier score is the constant 250. -/
theorem descScore_eq (rank : Nat) : descScore rank = 250 := by
  unfold descScore
  rw [Nat.div_eq_of_lt (Nat.lt_succ_self rank)]

/-- The topic-tier score is the constant 25. -/
theorem topicScore_eq (rank : Nat) : topicScore rank = 25 := by
  unfold topicScore
  rw [Nat.div_eq_of_lt (Nat.lt_succ_self rank)]

/-- Every item emitted for one (repository, needle) pair carries one of
the three tier constants as its priority. -/
theorem searchRepoNeedle_priority {m : Item} {repo : Repo} {needle : String}
    (h : m ∈ searchRepoNeedle repo needle) :
    m.priority = 1000 ∨ m.priority = 250 ∨ m.priority = 25 := by
  unfold searchRepoNeedle at h
  cases hf : firstNameRank needle (repoNameWords repo.Name) with
  | some rank =>
    rw [hf] at h
    simp only [List.mem_singleton] at h
    subst h
    exact Or.inl (nameScore_eq rank)
  | none =>
    rw [hf] at h
    rcases List.mem_append.mp h with hd | ht
    · obtain ⟨w, _, hw⟩ := List.mem_filterMap.mp hd
      simp only at hw
      split at hw
      · cases hw; exact Or.inr (Or.inl (descScore_eq _))
      · cases hw
    · obtain ⟨t, _, htm⟩ := List.mem_filterMap.mp ht
      simp only at htm
      split at htm
      · cases htm; exact Or.inr (Or.inr (topicScore_eq _))
      · cases htm

/-- Every item emitted by `Search` carries a tier constant. -/
theorem search_priority {m : Item} {repos : List Repo} {find : String}
    (h : m ∈ Search repos find) :
    m.priority = 1000 ∨ m.priority = 250 ∨ m.priority = 25 := by
  unfold Search at h
  obtain ⟨repo, _, hm⟩ := List.mem_flatMap.mp h
  obtain ⟨needle, _, hmm⟩ := List.mem_flatMap.mp hm
  exact searchRepoNeedle_priority hmm

/-- C1: score tier bands are strict and non-overlapping.  For every
distance within the threshold, the name-tier score strictly exceeds
every description-tier score and the description-tier score strictly
exceeds every topic-tier score; moreover every item `Search` emits, for
any dataset and query, carries one of these tier scores. -/
theorem score_tier_bands (repos : List Repo) (find : String) (d1 d2 : Nat)
    (h1 : d1 ≤ MAX_FUZZY_DISTANCE) (h2 : d2 ≤ MAX_FUZZY_DISTANCE) :
    descScore d2 < nameScore d1 ∧ topicScore d2 < descScore d1 ∧
    ∀ m ∈ Search repos find,
      m.priority = nameScore d1 ∨ m.priority = descScore d1 ∨
      m.priority = topicScore d1 := by
  simp only [nameScore_eq, descScore_eq, topicScore_eq]
  exact ⟨by norm_num, by norm_num, fun m hm => search_priority hm⟩

/-- Witness for C1 at concrete distances 0 and 2. -/
theorem score_tier_bands_witness :
    descScore 2 < nameScore 0 ∧ topicScore 2 < descScore 0 ∧
    ∀ m ∈ Search [repoAbc] "abc",
      m.priority = nameScore 0 ∨ m.priority = descScore 0 ∨
      m.priority = topicScore 0 :=
  score_tier_bands [repoAbc] "abc" 0 2 (by decide) (by decide)

/-- C2 counterexample: a repository whose name token equals the needle
and whose topic also equals the needle.  The name tier fires, and the
topic tier is *not* evaluated: the queue holds a single name-tier item
and no topic-tier item, although the topic is within the distance
threshold. -/
theorem topic_tier_skipped_on_name_match :
    "abc" ∈ repoAbcTopic.Topics ∧
    LevenshteinDistance "abc" "abc" ≤ MAX_FUZZY_DISTANCE ∧
    Search [repoAbcTopic] "abc" = [⟨repoAbcTopic, 1000⟩] ∧
    ¬ ∃ m ∈ Search [repoAbcTopic] "abc",
      m.priority = topicScore (LevenshteinDistance "abc" "abc") := by
  decide

/-- C2 amended: the topic tier is evaluated independently of the
description tier but only when no name-tier match fired for the
(repository, needle) pair; when the name tier fires, the pair emits
exactly its single name-tier item. -/
theorem topic_tier_conditional (repos : List Repo) (find : String)
    (repo : Repo) (needle : String)
    (hr : repo ∈ repos) (hn : needle ∈ fields find) :
    (firstNameRank needle (repoNameWords repo.Name) = none →
      ∀ topic ∈ repo.Topics, LevenshteinDistance needle topic ≤ MAX_FUZZY_DISTANCE →
        (⟨repo, topicScore (LevenshteinDistance needle topic)⟩ : Item) ∈
          Search repos find) ∧
    (∀ rank, firstNameRank needle (repoNameWords repo.Name) = some rank →
      searchRepoNeedle repo needle = [⟨repo, nameScore rank⟩]) := by
  constructor
  · intro hnone topic htopic hdist
    unfold Search
    rw [List.mem_flatMap]
    refine ⟨repo, hr, ?_⟩
    rw [List.mem_flatMap]
    refine ⟨needle, hn, ?_⟩
    unfold searchRepoNeedle
    rw [hnone]
    apply List.mem_append_right
    rw [List.mem_filterMap]
    refine ⟨topic, htopic, ?_⟩
    simp only [if_pos hdist]
  · intro rank hsome
    unfold searchRepoNeedle
    rw [hsome]

/-- Witness for C2 amended: a repository whose description and topic
both match while the name does not. -/
theorem topic_tier_conditional_witness :
    (⟨⟨"zzz", "", false, "", ⟨"", ""⟩, "", false, 0, ["abc"]⟩,
      topicScore (LevenshteinDistance "abc" "abc")⟩ : Item) ∈
      Search [⟨"zzz", "", false, "", ⟨"", ""⟩, "", false, 0, ["abc"]⟩] "abc" :=
  (topic_tier_conditional
      [⟨"zzz", "", false, "", ⟨"", ""⟩, "", false, 0, ["abc"]⟩] "abc"
      ⟨"zzz", "", false, "", ⟨"", ""⟩, "", false, 0, ["abc"]⟩ "abc"
      (by decide) (by decide)).1 (by decide) "abc" (by decide) (by decide)

/-- C3 counterexample: two name-tier matches of the same needle at
distances 0 and 2 receive the same score 1000, so the distance-0 match
does not score strictly higher. -/
theorem intra_tier_not_distance_sensitive :
    LevenshteinDistance "abc" "abc" = 0 ∧
    LevenshteinDistance "abc" "abcde" = 2 ∧
    Search [repoAbc, repoAbcde] "abc" = [⟨repoAbc, 1000⟩, ⟨repoAbcde, 1000⟩] ∧
    ¬ ((⟨repoAbc, 1000⟩ : Item).priority > (⟨repoAbcde, 1000⟩ : Item).priority) := by
  decide

/-- C3 amended: the truncating ratio `rank/(rank+1)` is zero for every
distance, so within each tier all matches score the same constant
(1000, 250, 25) regardless of distance, and the constants never cross
an adjacent band. -/
theorem intra_tier_scores_constant (d1 d2 : Nat) :
    nameScore d1 = nameScore d2 ∧ descScore d1 = descScore d2 ∧
    topicScore d1 = topicScore d2 ∧
    nameScore d1 = 1000 ∧ descScore d1 = 250 ∧ topicScore d1 = 25 ∧
    descScore d2 < nameScore d1 ∧ topicScore d2 < descScore d1 := by
  rw [nameScore_eq, nameScore_eq, descScore_eq, descScore_eq, topicScore_eq,
    topicScore_eq]
  norm_num

/-- C7: searching with an empty query returns an empty result queue for
every dataset, because splitting the empty string yields no needles. -/
theorem search_empty_query (repos : List Repo) : (Search repos "").length = 0 := by
  have hf : fields "" = [] := rfl
  unfold Search
  rw [hf]
  induction repos with
  | nil => rfl
  | cons r rs ih => simpa using ih

/-! ### GenerateCacheKey theorems -/

/-- Each digest byte of a serialized hash state is below 256. -/
theorem wordBytes_lt (x : Nat) : ∀ b ∈ wordBytes x, b < 256 := by
  intro b hb
  simp only [wordBytes, List.mem_cons, List.not_mem_nil, or_false] at hb
  rcases hb with rfl | rfl | rfl | rfl <;> omega

/-- A serialized hash state has exactly 32 bytes. -/
theorem stateBytes_length (s : SHState) : (stateBytes s).length = 32 := by
  simp [stateBytes, wordBytes]

/-- Every byte of a serialized hash state is below 256. -/
theorem stateBytes_lt (s : SHState) : ∀ b ∈ stateBytes s, b < 256 := by
  intro b hb
  simp only [stateBytes, List.mem_append] at hb
  rcases hb with ((((((h | h) | h) | h) | h) | h) | h) | h <;>
    exact wordBytes_lt _ _ h

/-- The SHA-256 digest always has 32 bytes. -/
theorem sha256Sum_length (msg : List Nat) : (sha256Sum msg).length = 32 :=
  stateBytes_length _

/-- Every SHA-256 digest byte is below 256. -/
theorem sha256Sum_lt (msg : List Nat) : ∀ b ∈ sha256Sum msg, b < 256 :=
  stateBytes_lt _

/-- The probe responses exercised by `TestGenerateCacheKey` in
`cmd/root_test.go`. -/
def resp403 : ProbeResponse :=
  ⟨403, [("X-RateLimit-Used", "5000"), ("X-RateLimit-Remaining", "0"),
         ("X-RateLimit-Reset", "1630000000")]⟩

/-- The 404 probe response of the test. -/
def resp404 : ProbeResponse := ⟨404, []⟩

/-- An unexpected-status probe response. -/
def resp500 : ProbeResponse := ⟨500, []⟩

/-- The raw `Link` pagination header of the 200-response test. -/
def testLinkHeader : String :=
  "<https://api.github.com/user/12345/starred?page=2&per_page=1>; rel=\"next\", <https://api.github.com/user/12345/starred?page=843&per_page=1>; rel=\"last\""

/-- The 200 probe response of the test. -/
def resp200 : ProbeResponse := ⟨200, [("Link", testLinkHeader)]⟩

/-- C4: `GenerateCacheKey` rejects an empty user with the zero digest;
maps 403 to a rate-limit error carrying the used/remaining/reset header
values, 404 to a not-found error and any other non-200 status to an
unexpected-status error carrying the code; and on 200 returns the
32-byte SHA-256 digest of the raw `Link` header, a pure function of
that header string. -/
theorem generateCacheKey_spec (user : String) (resp : ProbeResponse) :
    (∀ r : ProbeResponse, GenerateCacheKey "" r = (zeroKey, some .emptyUser)) ∧
    (user ≠ "" → resp.statusCode = 403 →
      GenerateCacheKey user resp =
        (zeroKey, some (.rateLimited (headerGet resp "X-RateLimit-Used")
          (headerGet resp "X-RateLimit-Remaining")
          (headerGet resp "X-RateLimit-Reset")))) ∧
    (user ≠ "" → resp.statusCode = 404 →
      GenerateCacheKey user resp = (zeroKey, some .notFound)) ∧
    (user ≠ "" → resp.statusCode ≠ 200 → resp.statusCode ≠ 403 →
      resp.statusCode ≠ 404 →
      GenerateCacheKey user resp =
        (zeroKey, some (.unexpectedStatus resp.statusCode))) ∧
    (user ≠ "" → resp.statusCode = 200 →
      GenerateCacheKey user resp =
        (sha256Sum (utf8Encode (headerGet resp "Link")), none) ∧
      (GenerateCacheKey user resp).1.length = 32 ∧
      ∀ b ∈ (GenerateCacheKey user resp).1, b < 256) ∧
    (∀ (u' : String) (r' : ProbeResponse), user ≠ "" → u' ≠ "" →
      resp.statusCode = 200 → r'.statusCode = 200 →
      headerGet r' "Link" = headerGet resp "Link" →
      (GenerateCacheKey u' r').1 = (GenerateCacheKey user resp).1) := by
  refine ⟨fun r => by simp [GenerateCacheKey], ?_, ?_, ?_, ?_, ?_⟩
  · intro hu h403
    simp [GenerateCacheKey, hu, h403]
  · intro hu h404
    simp [GenerateCacheKey, hu, h404]
  · intro hu h200 h403 h404
    simp [GenerateCacheKey, hu, h200, h403, h404]
  · intro hu h200
    have he : GenerateCacheKey user resp =
        (sha256Sum (utf8Encode (headerGet resp "Link")), none) := by
      simp [GenerateCacheKey, hu, h200]
    exact ⟨he, by rw [he]; exact sha256Sum_length _,
      by rw [he]; exact sha256Sum_lt _⟩
  · intro u' r' hu hu' h200 h200' hlink
    have he : GenerateCacheKey user resp =
        (sha256Sum (utf8Encode (headerGet resp "Link")), none) := by
      simp [GenerateCacheKey, hu, h200]
    have he' : GenerateCacheKey u' r' =
        (sha256Sum (utf8Encode (headerGet r' "Link")), none) := by
      simp [GenerateCacheKey, hu', h200']
    rw [he, he', hlink]

/-- Witness for C4 at the concrete test responses of
`cmd/root_test.go`. -/
theorem generateCacheKey_spec_witness :
    GenerateCacheKey "" resp200 = (zeroKey, some .emptyUser) ∧
    GenerateCacheKey "Link-" resp403 =
      (zeroKey, some (.rateLimited "5000" "0" "1630000000")) ∧
    GenerateCacheKey "Link-" resp404 = (zeroKey, some .notFound) ∧
    GenerateCacheKey "Link-" resp500 =
      (zeroKey, some (.unexpectedStatus 500)) ∧
    (GenerateCacheKey "Link-" resp200).2 = none ∧
    (GenerateCacheKey "Link-" resp200).1.length = 32 := by
  have h := generateCacheKey_spec "Link-" resp200
  have h403 := (generateCacheKey_spec "Link-" resp403).2.1 (by decide) rfl
  have h404 := (generateCacheKey_spec "Link-" resp404).2.2.1 (by decide) rfl
  have h500 := (generateCacheKey_spec "Link-" resp500).2.2.2.1 (by decide)
    (by decide) (by decide) (by decide)
  have h200 := h.2.2.2.2.1 (by decide) rfl
  refine ⟨h.1 resp200, ?_, h404, h500, ?_, h200.2.1⟩
  · rw [h403]; rfl
  · rw [h200.1]

set_option maxRecDepth 8192 in
/-- The digest of the test `Link` header matches the hex key pinned by
`TestGenerateCacheKey` (`2d06a89b2687…471e6e`). -/
theorem cacheKey_test_vector :
    GenerateCacheKey "Link-" resp200 = (testKey, none) := by
  decide

/-! ### GetCachePath theorems -/

/-- Without an override and with a non-zero key, the resolved path is
the derived scratch path, whatever the filesystem state. -/
theorem getCachePath_derived (tmpDir : String) (key : List Nat) (fs : FS)
    (hk : key ≠ zeroKey) :
    (GetCachePath "" tmpDir key fs).1 =
      .ok (joinPath tmpDir ("stars_" ++ hexEncode (key.take 6) ++ ".json")) := by
  simp only [GetCachePath]
  rw [if_neg (by simp), if_neg hk]
  split <;> rfl

/-- C5: a non-empty override path is returned unchanged for every key;
without an override the zero key is rejected; otherwise the returned
path is the scratch-directory path built from the fixed `stars_` prefix
plus the first 6 key bytes hex-encoded, and it does not depend on the
filesystem state, so repeated calls yield the same path. -/
theorem getCachePath_spec (cacheFile tmpDir : String) (key : List Nat)
    (fs fs' : FS) :
    (cacheFile ≠ "" → (GetCachePath cacheFile tmpDir key fs).1 = .ok cacheFile) ∧
    ((GetCachePath "" tmpDir zeroKey fs).1 = .error .emptyCacheKey) ∧
    (key ≠ zeroKey →
      (GetCachePath "" tmpDir key fs).1 =
        .ok (joinPath tmpDir ("stars_" ++ hexEncode (key.take 6) ++ ".json")) ∧
      (GetCachePath "" tmpDir key fs).1 = (GetCachePath "" tmpDir key fs').1) := by
  refine ⟨fun hc => ?_, by simp [GetCachePath], fun hk =>
    ⟨getCachePath_derived tmpDir key fs hk, ?_⟩⟩
  · simp only [GetCachePath, if_pos hc]
  · rw [getCachePath_derived tmpDir key fs hk, getCachePath_derived tmpDir key fs' hk]

/-- Witness for C5: the override wins, and the derived path for the
test key is the one pinned by `TestGetCachePath`. -/
theorem getCachePath_spec_witness :
    (GetCachePath "/tmp/test.json" "/tmp" testKey []).1 = .ok "/tmp/test.json" ∧
    (GetCachePath "" "/tmp" testKey []).1 = .ok "/tmp/stars_2d06a89b2687.json" := by
  have h1 := (getCachePath_spec "/tmp/test.json" "/tmp" testKey [] []).1 (by decide)
  have h2 := ((getCachePath_spec "" "/tmp" testKey [] []).2.2 (by decide)).1
  refine ⟨h1, ?_⟩
  rw [h2]
  rfl

/-- C10: path resolution has exactly this filesystem side effect: with
no override and no file at the derived path, an empty file is created
there before the path is returned; with an override path supplied,
nothing is created and the filesystem is untouched. -/
theorem getCachePath_fs_effect (cacheFile tmpDir : String) (key : List Nat)
    (fs : FS) :
    (cacheFile ≠ "" → GetCachePath cacheFile tmpDir key fs = (.ok cacheFile, fs)) ∧
    (key ≠ zeroKey →
      ∀ path, path = joinPath tmpDir ("stars_" ++ hexEncode (key.take 6) ++ ".json") →
        fileExists fs path = false →
          GetCachePath "" tmpDir key fs = (.ok path, fsWrite fs path "") ∧
          fileExists (fsWrite fs path "") path = true ∧
          fsRead (fsWrite fs path "") path = some "") := by
  constructor
  · intro hc
    simp only [GetCachePath, if_pos hc]
  · intro hk path hpath habsent
    subst hpath
    refine ⟨?_, ?_, ?_⟩
    · simp only [GetCachePath]
      rw [if_neg (by simp), if_neg hk, habsent]
      rfl
    · simp [fileExists, fsRead, fsWrite]
    · simp [fsRead, fsWrite]

/-- Witness for C10: with the test key and an empty filesystem, the
placeholder is created at the derived path; with an override, the
filesystem is returned unchanged. -/
theorem getCachePath_fs_effect_witness :
    GetCachePath "/tmp/test.json" "/tmp" testKey [] = (.ok "/tmp/test.json", []) ∧
    GetCachePath "" "/tmp" testKey [] =
      (.ok "/tmp/stars_2d06a89b2687.json",
       [("/tmp/stars_2d06a89b2687.json", "")]) := by
  have h1 := (getCachePath_fs_effect "/tmp/test.json" "/tmp" testKey []).1 (by decide)
  have h2 := ((getCachePath_fs_effect "" "/tmp" testKey []).2 (by decide)
    "/tmp/stars_2d06a89b2687.json" (by decide) (by decide)).1
  exact ⟨h1, by rw [h2]; rfl⟩

/-! ### Payload rewriting lemmas -/

/-- Replacement never lengthens the character list. -/
theorem replaceBrackets_length_le :
    ∀ l : List Char, (replaceBrackets l).length ≤ l.length := by
  intro l
  induction l using replaceBrackets.induct with
  | case1 => simp [replaceBrackets]
  | case2 c => simp [replaceBrackets]
  | case3 c1 c2 rest hc ih =>
    simp only [replaceBrackets, if_pos hc, List.length_cons]
    omega
  | case4 c1 c2 rest hc ih =>
    simp only [replaceBrackets, if_neg hc, List.length_cons]
    simp only [List.length_cons] at ih
    omega

/-- If the pattern occurs, replacement strictly shortens the list. -/
theorem replaceBrackets_length_lt :
    ∀ l : List Char, hasBrackets l = true → (replaceBrackets l).length < l.length := by
  intro l h
  induction l using replaceBrackets.induct with
  | case1 => simp [hasBrackets] at h
  | case2 c => simp [hasBrackets] at h
  | case3 c1 c2 rest hc ih =>
    have hle := replaceBrackets_length_le rest
    simp only [replaceBrackets, if_pos hc, List.length_cons]
    omega
  | case4 c1 c2 rest hc ih =>
    rw [hasBrackets, if_neg hc] at h
    simp only [replaceBrackets, if_neg hc, List.length_cons]
    exact Nat.succ_lt_succ (ih h)

/-- If the pattern does not occur, replacement is the identity. -/
theorem replaceBrackets_id :
    ∀ l : List Char, hasBrackets l = false → replaceBrackets l = l := by
  intro l h
  induction l using replaceBrackets.induct with
  | case1 => rfl
  | case2 c => rfl
  | case3 c1 c2 rest hc ih =>
    rw [hasBrackets, if_pos hc] at h
    cases h
  | case4 c1 c2 rest hc ih =>
    rw [hasBrackets, if_neg hc] at h
    rw [replaceBrackets, if_neg hc, ih h]

/-! ### GetStarredRepos theorems -/

/-- With an override path and no file at it, the open inside `fileSize`
fails and `GetStarredRepos` propagates the error, touching nothing. -/
theorem getStarredRepos_absent_override (tmpDir P : String) (key : List Nat)
    (fetched : String) (fs : FS) (hP : P ≠ "") (hnone : fsRead fs P = none) :
    GetStarredRepos P tmpDir key fetched fs = (.error (.openFailed P), fs) := by
  have hpath : GetCachePath P tmpDir key fs = (.ok P, fs) := by
    simp only [GetCachePath, if_pos hP]
  have hsize : fileSize fs P = .error (.openFailed P) := by
    simp [fileSize, hnone]
  simp only [GetStarredRepos, hpath, hsize]

/-- With an override path whose file is empty, the fetch runs and the
rewritten payload is cached and returned. -/
theorem getStarredRepos_miss_override (tmpDir P : String) (key : List Nat)
    (fetched : String) (fs : FS) (hP : P ≠ "") (hempty : fsRead fs P = some "") :
    GetStarredRepos P tmpDir key fetched fs =
      (.ok (fixConcatenated fetched), fsWrite fs P (fixConcatenated fetched)) := by
  have hpath : GetCachePath P tmpDir key fs = (.ok P, fs) := by
    simp only [GetCachePath, if_pos hP]
  have hsize : fileSize fs P = .ok 0 := by
    simp [fileSize, hempty]
  have hex : fileExists fs P = true := by
    simp [fileExists, hempty]
  simp only [GetStarredRepos, hpath, hsize, hex]
  rfl

/-- With no override and no file at the derived path, the placeholder
is created, the fetch runs, and the rewritten payload is cached and
returned. -/
theorem getStarredRepos_miss_derived (tmpDir : String) (key : List Nat)
    (fetched : String) (fs : FS) (hk : key ≠ zeroKey)
    (habsent : fileExists fs
      (joinPath tmpDir ("stars_" ++ hexEncode (key.take 6) ++ ".json")) = false) :
    GetStarredRepos "" tmpDir key fetched fs =
      (.ok (fixConcatenated fetched),
       fsWrite (fsWrite fs (joinPath tmpDir ("stars_" ++ hexEncode (key.take 6) ++ ".json")) "")
         (joinPath tmpDir ("stars_" ++ hexEncode (key.take 6) ++ ".json"))
         (fixConcatenated fetched)) := by
  set path := joinPath tmpDir ("stars_" ++ hexEncode (key.take 6) ++ ".json") with hpathdef
  have hpath : GetCachePath "" tmpDir key fs = (.ok path, fsWrite fs path "") := by
    simp only [GetCachePath]
    rw [if_neg (by simp), if_neg hk]
    simp only [← hpathdef, habsent]
    rfl
  have hread : fsRead (fsWrite fs path "") path = some "" := by
    simp [fsRead, fsWrite]
  have hsize : fileSize (fsWrite fs path "") path = .ok 0 := by
    simp [fileSize, hread]
  have hex : fileExists (fsWrite fs path "") path = true := by
    simp [fileExists, hread]
  simp only [GetStarredRepos, hpath, hsize, hex]
  rfl

/-- C6 counterexample: for a user-supplied override path whose file
does not exist, `GetStarredRepos` returns an error instead of treating
the absence as a benign cache miss, and no placeholder is created. -/
theorem load_fails_on_absent_override :
    GetStarredRepos "/tmp/override.json" "/tmp" testKey "payload" [] =
      (.error (.openFailed "/tmp/override.json"), []) ∧
    fileExists [] "/tmp/override.json" = false :=
  ⟨rfl, rfl⟩

/-- C6 amended: absence is benign only for the derived cache path,
where path resolution creates an empty placeholder and the fetch
proceeds as a miss; an empty file at an override path is likewise a
benign miss; but an absent file at a user-supplied override path makes
`GetStarredRepos` fail with the open error. -/
theorem cache_load_amended (tmpDir P : String) (key : List Nat)
    (fetched : String) (fs : FS) :
    (key ≠ zeroKey →
      fileExists fs (joinPath tmpDir ("stars_" ++ hexEncode (key.take 6) ++ ".json")) = false →
      (GetStarredRepos "" tmpDir key fetched fs).1 = .ok (fixConcatenated fetched) ∧
      fileExists (GetStarredRepos "" tmpDir key fetched fs).2
        (joinPath tmpDir ("stars_" ++ hexEncode (key.take 6) ++ ".json")) = true) ∧
    (P ≠ "" → fsRead fs P = some "" →
      (GetStarredRepos P tmpDir key fetched fs).1 = .ok (fixConcatenated fetched)) ∧
    (P ≠ "" → fsRead fs P = none →
      (GetStarredRepos P tmpDir key fetched fs).1 = .error (.openFailed P)) := by
  refine ⟨fun hk habsent => ?_, fun hP hempty => ?_, fun hP hnone => ?_⟩
  · rw [getStarredRepos_miss_derived tmpDir key fetched fs hk habsent]
    exact ⟨rfl, by simp [fileExists, fsRead, fsWrite]⟩
  · rw [getStarredRepos_miss_override tmpDir P key fetched fs hP hempty]
  · rw [getStarredRepos_absent_override tmpDir P key fetched fs hP hnone]

/-- Witness for C6 amended at concrete filesystem states. -/
theorem cache_load_amended_witness :
    (GetStarredRepos "" "/tmp" testKey "payload" []).1 =
      .ok (fixConcatenated "payload") ∧
    (GetStarredRepos "/tmp/c.json" "/tmp" testKey "payload"
      [("/tmp/c.json", "")]).1 = .ok (fixConcatenated "payload") ∧
    (GetStarredRepos "/tmp/c.json" "/tmp" testKey "payload" []).1 =
      .error (.openFailed "/tmp/c.json") :=
  ⟨((cache_load_amended "/tmp" "/tmp/c.json" testKey "payload" []).1
      (by decide) rfl).1,
   (cache_load_amended "/tmp" "/tmp/c.json" testKey "payload"
      [("/tmp/c.json", "")]).2.1 (by decide) rfl,
   (cache_load_amended "/tmp" "/tmp/c.json" testKey "payload" []).2.2
      (by decide) rfl⟩

/-- C9: on a cache miss the provider bytes are not passed through
verbatim: the returned and cached payload is the fetched payload with
every occurrence of the two-character sequence of a closing and an
opening square bracket replaced by a comma, and whenever that sequence
occurs in the fetched payload the result differs from it (when it does
not occur, the payload is unchanged). -/
theorem cache_miss_rewrites_payload (tmpDir P : String) (key : List Nat)
    (fetched : String) (fs : FS) (hP : P ≠ "") (hempty : fsRead fs P = some "") :
    (GetStarredRepos P tmpDir key fetched fs).1 = .ok (fixConcatenated fetched) ∧
    fsRead (GetStarredRepos P tmpDir key fetched fs).2 P =
      some (fixConcatenated fetched) ∧
    (hasBrackets fetched.data = true → fixConcatenated fetched ≠ fetched) ∧
    (hasBrackets fetched.data = false → fixConcatenated fetched = fetched) := by
  rw [getStarredRepos_miss_override tmpDir P key fetched fs hP hempty]
  refine ⟨rfl, by simp [fsRead, fsWrite], fun hb heq => ?_, fun hb => ?_⟩
  · have hlen := replaceBrackets_length_lt fetched.data hb
    have hdata : (fixConcatenated fetched).data = fetched.data := by rw [heq]
    simp only [fixConcatenated] at hdata
    rw [hdata] at hlen
    exact lt_irrefl _ hlen
  · show String.mk (replaceBrackets fetched.data) = fetched
    rw [replaceBrackets_id fetched.data hb]

/-- Witness for C9 on a payload holding the concatenated-slices
artifact of `gh api --paginate`. -/
theorem cache_miss_rewrites_payload_witness :
    (GetStarredRepos "/tmp/c.json" "/tmp" testKey "[1][2]"
      [("/tmp/c.json", "")]).1 = .ok (fixConcatenated "[1][2]") ∧
    hasBrackets "[1][2]".data = true ∧
    fixConcatenated "[1][2]" ≠ "[1][2]" ∧
    fixConcatenated "[1][2]" = "[1,2]" := by
  have h := cache_miss_rewrites_payload "/tmp" "/tmp/c.json" testKey "[1][2]"
    [("/tmp/c.json", "")] (by decide) rfl
  exact ⟨h.1, by decide, h.2.2.1 (by decide), by decide⟩

/-! ### Result-queue extraction theorems -/

/-- A pop returns `none` only on the empty queue. -/
theorem popHighest_eq_none : ∀ {q : List Item}, popHighest q = none → q = [] := by
  intro q h
  cases q with
  | nil => rfl
  | cons a as =>
    rcases hp : popHighest as with _ | ⟨y, ys⟩ <;> simp only [popHighest, hp] at h
    · cases h
    · split at h <;> cases h

/-- A pop removes exactly one entry. -/
theorem popHighest_length : ∀ {q : List Item} {x : Item} {ys : List Item},
    popHighest q = some (x, ys) → ys.length + 1 = q.length := by
  intro q
  induction q with
  | nil => intro x ys h; cases h
  | cons a as ih =>
    intro x ys h
    rcases hp : popHighest as with _ | ⟨y, ys'⟩ <;> simp only [popHighest, hp] at h
    · cases h
      rw [popHighest_eq_none hp]
      rfl
    · have hlen := ih hp
      split at h <;> cases h <;> simp only [List.length_cons] at hlen ⊢ <;> omega

/-- The popped entry has the greatest priority in the queue. -/
theorem popHighest_max : ∀ {q : List Item} {x : Item} {ys : List Item},
    popHighest q = some (x, ys) → ∀ z ∈ q, z.priority ≤ x.priority := by
  intro q
  induction q with
  | nil => intro x ys h; cases h
  | cons a as ih =>
    intro x ys h z hz
    rcases hp : popHighest as with _ | ⟨y, ys'⟩ <;> simp only [popHighest, hp] at h
    · cases h
      rw [popHighest_eq_none hp] at hz
      rcases List.mem_singleton.mp hz with rfl
      exact le_refl _
    · have hmax := ih hp
      split at h <;> cases h <;> rcases List.mem_cons.mp hz with rfl | hz'
      · omega
      · exact hmax z hz'
      · exact le_refl _
      · have := hmax z hz'
        omega

/-- The popped entry was in the queue. -/
theorem popHighest_self_mem : ∀ {q : List Item} {x : Item} {ys : List Item},
    popHighest q = some (x, ys) → x ∈ q := by
  intro q
  induction q with
  | nil => intro x ys h; cases h
  | cons a as ih =>
    intro x ys h
    rcases hp : popHighest as with _ | ⟨y, ys'⟩ <;> simp only [popHighest, hp] at h
    · cases h
      exact List.mem_cons_self a as
    · split at h <;> cases h
      · exact List.mem_cons_of_mem a (ih hp)
      · exact List.mem_cons_self a as

/-- The remaining entries after a pop were in the queue. -/
theorem popHighest_rest_mem : ∀ {q : List Item} {x : Item} {ys : List Item},
    popHighest q = some (x, ys) → ∀ z ∈ ys, z ∈ q := by
  intro q
  induction q with
  | nil => intro x ys h; cases h
  | cons a as ih =>
    intro x ys h z hz
    rcases hp : popHighest as with _ | ⟨y, ys'⟩ <;> simp only [popHighest, hp] at h
    · cases h
      cases hz
    · split at h <;> cases h
      · rcases List.mem_cons.mp hz with rfl | hz'
        · exact List.mem_cons_self _ _
        · exact List.mem_cons_of_mem a (ih hp z hz')
      · exact List.mem_cons_of_mem a hz

/-- Popping `n` times drains `min n len` entries. -/
theorem renderPops_length : ∀ (n : Nat) (q : List Item),
    (renderPops n q).length = min n q.length := by
  intro n
  induction n with
  | zero => intro q; simp [renderPops]
  | succ n ih =>
    intro q
    rcases hp : popHighest q with _ | ⟨x, rest⟩ <;> simp only [renderPops, hp]
    · rw [popHighest_eq_none hp]
      simp
    · have hlen := popHighest_length hp
      simp only [List.length_cons, ih rest]
      omega

/-- Drained entries come from the queue. -/
theorem renderPops_mem : ∀ (n : Nat) (q : List Item) (z : Item),
    z ∈ renderPops n q → z ∈ q := by
  intro n
  induction n with
  | zero => intro q z hz; cases hz
  | succ n ih =>
    intro q z hz
    rcases hp : popHighest q with _ | ⟨x, rest⟩ <;> simp only [renderPops, hp] at hz
    · cases hz
    · rcases List.mem_cons.mp hz with rfl | hz'
      · exact popHighest_self_mem hp
      · exact popHighest_rest_mem hp z (ih rest z hz')

/-- Drained priorities are in non-increasing order. -/
theorem renderPops_sorted : ∀ (n : Nat) (q : List Item),
    List.Sorted (· ≥ ·) ((renderPops n q).map Item.priority) := by
  intro n
  induction n with
  | zero => intro q; simp [renderPops]
  | succ n ih =>
    intro q
    rcases hp : popHighest q with _ | ⟨x, rest⟩ <;> simp only [renderPops, hp]
    · simp
    · rw [List.map_cons, List.sorted_cons]
      refine ⟨?_, ih rest⟩
      intro b hb
      rcases List.mem_map.mp hb with ⟨z, hz, rfl⟩
      exact popHighest_max hp z (popHighest_rest_mem hp z (renderPops_mem n rest z hz))

/-- C8: for a queue of length N, the render loop pops exactly
`RenderLimit N L` matches: `min L N` when the requested limit L is
non-negative and all N when L is the unbounded sentinel -1, and the
popped matches come out in descending (non-increasing) score order. -/
theorem topK_extraction (q : List Item) (L : Int) :
    (0 ≤ L → (renderPops (RenderLimit q.length L) q).length = min L.toNat q.length) ∧
    (L = -1 → (renderPops (RenderLimit q.length L) q).length = q.length) ∧
    List.Sorted (· ≥ ·)
      ((renderPops (RenderLimit q.length L) q).map Item.priority) := by
  refine ⟨fun hL => ?_, fun hL => ?_, renderPops_sorted _ q⟩
  · rw [renderPops_length, RenderLimit, if_neg (by omega)]
    omega
  · subst hL
    rw [renderPops_length, RenderLimit, if_pos (by omega)]
    omega

/-- A five-entry queue with distinct descending scores, mirroring the
fixture of `TestRender`. -/
def q5 : List Item :=
  [⟨repoAbc, 1000⟩, ⟨repoAbcde, 500⟩, ⟨repoAbcTopic, 333⟩, ⟨repoAbc, 250⟩,
   ⟨repoAbcde, 200⟩]

/-- Witness for C8: limit 3 drains 3 of the 5 entries, the sentinel -1
drains all 5, in sorted order. -/
theorem topK_extraction_witness :
    (0 : Int) ≤ 3 ∧
    (renderPops (RenderLimit q5.length 3) q5).length = min (3 : Int).toNat q5.length ∧
    (renderPops (RenderLimit q5.length (-1)) q5).length = q5.length ∧
    List.Sorted (· ≥ ·)
      ((renderPops (RenderLimit q5.length 3) q5).map Item.priority) :=
  ⟨by decide, (topK_extraction q5 3).1 (by decide), (topK_extraction q5 (-1)).2.1 rfl,
   (topK_extraction q5 3).2.2⟩

end GhStars
